import Mathlib

/-!
Shallow embedding of the NSIGII sparse tomographic engine
(`src/NSIGII_EZE_Lite/nsigii_minimal.c` and
`src/NSIGII_EZE_Lite/nsigii_dimensional.c`).

C machine values are modelled as follows: `uint8_t` byte values as `ℕ`
(with `% 256` where the source reduces), C `int` as `ℤ` with truncating
division `Int.div` and truncating remainder `Int.tmod` (the semantics of
C's `/` and `%`), and `float`/`double` quantities as `ℚ`.  The Fourier
square-wave primitive (`sinf`-based) and the `rand()` stream are passed
in as explicit function parameters, so every definition stays
executable.  The per-cell tomographic-index field of the dimensional
grid's cells is write-only in the source and is not modelled.
-/

/- === Tomographic index (both engine files define the same struct) === -/

structure TomographicIndex where
  i : ℤ
  j : ℤ
  k : ℤ
  permutations : List (ℤ × ℤ × ℤ)
deriving Repr, DecidableEq

/-- The six permutations in the fixed source order: ijk, jik, ikj, jki, kij, kji. -/
def buildPermutations (i j k : ℤ) : List (ℤ × ℤ × ℤ) :=
  [(i, j, k), (j, i, k), (i, k, j), (j, k, i), (k, i, j), (k, j, i)]

/-- `init_tomographic_index`: stores the triple and its six permutations. -/
def initTomographicIndex (i j k : ℤ) : TomographicIndex :=
  { i := i, j := j, k := k, permutations := buildPermutations i j k }

/- === Trident event model (nsigii_minimal.c) === -/

inductive TridentEvent where
  | up | down | left | right | back | start | enter | stop
deriving Repr, DecidableEq

/-- `handle_trident_event`: moves the current triple, wrapping modulo 10.
The stored permutation list is not touched by any event. -/
def handleTridentEvent (e : TridentEvent) (idx : TomographicIndex) : TomographicIndex :=
  match e with
  | .up    => { idx with i := (idx.i + 1).tmod 10 }
  | .down  => { idx with i := (idx.i - 1 + 10).tmod 10 }
  | .left  => { idx with j := (idx.j - 1 + 10).tmod 10 }
  | .right => { idx with j := (idx.j + 1).tmod 10 }
  | .back  => { idx with k := (idx.k - 1 + 10).tmod 10 }
  | .start => { idx with i := 0, j := 0, k := 0 }
  | .enter => idx
  | .stop  => idx

namespace Dimensional

/- === nsigii_dimensional.c === -/

/-- `DerivativeNode`: the five-slot derivative trace of a cell. -/
structure DerivativeNode where
  value : ℚ
  order : ℤ
  trace0 : ℚ
  trace1 : ℚ
  trace2 : ℚ
  trace3 : ℚ
  trace4 : ℚ
  terminated : Bool
deriving Repr, DecidableEq

/-- `trace_derivative`: fixed cubic model `f(t) = 4 + 3t + 2t² + t³` with
closed-form derivatives; `initial` is stored into `value`/`trace[0]` and then
overwritten by the polynomial evaluation. -/
def traceDerivative (initial t : ℚ) : DerivativeNode :=
  let c0 : ℚ := 4
  let c1 : ℚ := 3
  let c2 : ℚ := 2
  let c3 : ℚ := 1
  let v0 := initial
  let value := c0 * 1 + c1 * t + c2 * (t * t) + c3 * (t * t * t)
  let t1 := c1 + 2 * c2 * t + 3 * c3 * t * t
  let t2 := 2 * c2 + 6 * c3 * t
  let t3 := 6 * c3
  let t4 : ℚ := 0
  { value := value
    order := 4
    trace0 := (fun _ => value) v0
    trace1 := t1
    trace2 := t2
    trace3 := t3
    trace4 := t4
    terminated := decide (|t4| < 1 / 10000000000) }

/-- `SparseNode` of nsigii_dimensional.c: one cell of one colour channel.
Channels are numbered as in the source: RED = 0, GREEN = 1, BLUE = 2, CYAN = 3. -/
structure SparseNode where
  value : ℚ
  channel : ℕ
  active : Bool
  deriv : DerivativeNode
  entropy : ℚ
  polarity : ℚ
deriving Repr, DecidableEq

/-- One row `grid[linear_idx][0..3]` of the dimensional grid. -/
structure Slot where
  red : SparseNode
  green : SparseNode
  blue : SparseNode
  cyan : SparseNode
deriving Repr, DecidableEq

/-- `HARMONICS` of nsigii_dimensional.c. -/
def HARMONICS : ℕ := 9

/-- `ACTIVE_SIZE` of nsigii_dimensional.c: `(10*10*10)/4`. -/
def ACTIVE_SIZE : ℕ := (10 * 10 * 10) / 4

/-- The body of `init_sparse_grid` for one initialized row `linear_idx = n` at
coordinates `(i, j, k)`.  `wave` stands for `fourier_square`, `rnd p` for the
`p`-th value of `(double)rand() / RAND_MAX`; the three `rand()` calls of row
`n` are numbers `3n`, `3n+1`, `3n+2` of the stream. -/
def mkSlot (wave : ℚ → ℕ → ℚ) (rnd : ℕ → ℚ) (n i j k : ℕ) : Slot :=
  let s : ℚ := (i : ℚ) + (j : ℚ) + (k : ℚ)
  let timeBase : ℚ := s * (1 / 10)
  let redValue := wave s HARMONICS
  let redEntropy := 1 / 2 + rnd (3 * n) * (1 / 2)
  let greenValue := wave (s + 1 / 2) HARMONICS
  let greenEntropy := 1 / 2 + rnd (3 * n + 1) * (1 / 2)
  let blueValue := wave (s + 1) HARMONICS
  let blueEntropy := 1 / 2 + rnd (3 * n + 2) * (1 / 2)
  let cyanValue := (redValue + greenValue) / 2
  let cyanEntropy := (redEntropy + greenEntropy) / 2
  { red := { value := redValue, channel := 0, active := true,
             deriv := traceDerivative redValue timeBase,
             entropy := redEntropy, polarity := 1 }
    green := { value := greenValue, channel := 1, active := true,
               deriv := traceDerivative greenValue timeBase,
               entropy := greenEntropy, polarity := -1 }
    blue := { value := blueValue, channel := 2, active := true,
              deriv := traceDerivative blueValue timeBase,
              entropy := blueEntropy, polarity := 0 }
    cyan := { value := cyanValue, channel := 3, active := true,
              deriv := traceDerivative cyanValue timeBase,
              entropy := cyanEntropy, polarity := 0 } }

/-- All coordinate triples `(i, j, k)` with `0 ≤ i, j, k < GRID_SIZE = 10`,
in the source's loop order. -/
def tripleList : List (ℕ × ℕ × ℕ) :=
  (List.range 10).flatMap fun i =>
    (List.range 10).flatMap fun j =>
      (List.range 10).map fun k => (i, j, k)

/-- The triples that `init_sparse_grid` materializes: those with
`(i+j+k) % SPARSE_FACTOR == 0`, in loop order, stopped once `linear_idx`
reaches `ACTIVE_SIZE` (the `linear_idx < ACTIVE_SIZE` guard). -/
def activeTriples : List (ℕ × ℕ × ℕ) :=
  (tripleList.filter fun t => (t.1 + t.2.1 + t.2.2) % 4 == 0).take ACTIVE_SIZE

/-- `init_sparse_grid`: the list of initialized rows, row `n` built from the
`n`-th materialized triple. -/
def initSparseGrid (wave : ℚ → ℕ → ℚ) (rnd : ℕ → ℚ) : List Slot :=
  activeTriples.enum.map fun p => mkSlot wave rnd p.1 p.2.1 p.2.2.1 p.2.2.2

/-- The per-cell body of `nsigii_verification_cycle`: an active cell gets a
fresh Fourier value, a recomputed derivative trace, and a noisy entropy;
`pos` is the position in the `rand()` stream, advanced once per active cell. -/
def refreshCell (wave : ℚ → ℕ → ℚ) (rnd : ℕ → ℚ) (cycle i : ℕ)
    (c : SparseNode) (pos : ℕ) : SparseNode × ℕ :=
  if c.active then
    let phase : ℚ := (cycle : ℚ) * (1 / 10) + (i : ℚ) * (1 / 100)
    let value := wave phase (HARMONICS + cycle % 5)
    let noise := rnd pos * (1 / 10) - 1 / 20
    ({ c with value := value
              deriv := traceDerivative value phase
              entropy := 1 / 2 + |value| * (3 / 10) + noise }, pos + 1)
  else (c, pos)

/-- One row of `nsigii_verification_cycle`: channels refreshed in source
order RED, GREEN, BLUE, CYAN. -/
def refreshSlot (wave : ℚ → ℕ → ℚ) (rnd : ℕ → ℚ) (cycle i : ℕ)
    (s : Slot) (pos : ℕ) : Slot × ℕ :=
  let r := refreshCell wave rnd cycle i s.red pos
  let g := refreshCell wave rnd cycle i s.green r.2
  let b := refreshCell wave rnd cycle i s.blue g.2
  let c := refreshCell wave rnd cycle i s.cyan b.2
  ({ red := r.1, green := g.1, blue := b.1, cyan := c.1 }, c.2)

/-- The grid scan of `nsigii_verification_cycle`, starting at row index `i`. -/
def refreshGridAux (wave : ℚ → ℕ → ℚ) (rnd : ℕ → ℚ) (cycle : ℕ) :
    List Slot → ℕ → ℕ → List Slot × ℕ
  | [], _, pos => ([], pos)
  | s :: rest, i, pos =>
    let r := refreshSlot wave rnd cycle i s pos
    let t := refreshGridAux wave rnd cycle rest (i + 1) r.2
    (r.1 :: t.1, t.2)

/-- `nsigii_verification_cycle`: refresh every active cell of every row;
`pos` is the incoming position in the `rand()` stream. -/
def refreshGrid (wave : ℚ → ℕ → ℚ) (rnd : ℕ → ℚ) (cycle : ℕ)
    (g : List Slot) (pos : ℕ) : List Slot × ℕ :=
  refreshGridAux wave rnd cycle g 0 pos

/-- `active_count[RED]` as tallied by `nsigii_verification_cycle`. -/
def redActiveCount (g : List Slot) : ℕ :=
  (g.filter fun s => s.red.active).length

/-- `active_count[GREEN]` as tallied by `nsigii_verification_cycle`. -/
def greenActiveCount (g : List Slot) : ℕ :=
  (g.filter fun s => s.green.active).length

end Dimensional

namespace Minimal

/- === nsigii_minimal.c === -/

/-- `GovernanceVector`: the three-component risk summary. -/
structure GovernanceVector where
  attack_risk : ℚ
  rollback_cost : ℚ
  stability_impact : ℚ
deriving Repr, DecidableEq

/-- `SparseNode` of nsigii_minimal.c: a byte-valued cell.  `value` is the
`uint8_t` payload, `polarity` the `int8_t` duality sign. -/
structure SparseNode where
  value : ℕ
  active : Bool
  vector : GovernanceVector
  channel : ℕ
  polarity : ℤ
deriving Repr, DecidableEq

/-- `ACTIVE_SIZE` of nsigii_minimal.c: `1024 / 4`. -/
def ACTIVE_SIZE : ℕ := 1024 / 4

/-- The slot-wise body of `combine_channels`: when both inputs are active the
CYAN cell is rebuilt (byte value is the C integer mean `(r+g)/2`, polarity the
truncating integer mean); otherwise the loop body does nothing and the
pre-existing CYAN cell `c0` is left in place. -/
def combineCell (c0 r g : SparseNode) : SparseNode :=
  if r.active && g.active then
    { value := (r.value + g.value) / 2
      active := true
      channel := 3
      polarity := (r.polarity + g.polarity).tdiv 2
      vector :=
        { attack_risk := (r.vector.attack_risk + g.vector.attack_risk) / 2
          rollback_cost := (r.vector.rollback_cost + g.vector.rollback_cost) / 2
          stability_impact := (r.vector.stability_impact + g.vector.stability_impact) / 2 } }
  else c0

/-- `combine_channels`: the slot-wise combination over co-indexed arrays. -/
def combineChannels (cyan red green : List SparseNode) : List SparseNode :=
  (cyan.zip (red.zip green)).map fun p => combineCell p.1 p.2.1 p.2.2

/-- One iteration of the accumulation loop of step 4 of
`nsigii_protocol_cycle`: an active RED cell adds its governance vector to the
running sums and bumps the count. -/
def accumVector (acc : GovernanceVector × ℕ) (c : SparseNode) : GovernanceVector × ℕ :=
  if c.active then
    ({ attack_risk := acc.1.attack_risk + c.vector.attack_risk
       rollback_cost := acc.1.rollback_cost + c.vector.rollback_cost
       stability_impact := acc.1.stability_impact + c.vector.stability_impact }, acc.2 + 1)
  else acc

/-- The accumulation loop of step 4 of `nsigii_protocol_cycle`: component-wise
sums of the governance vectors of active RED cells, with their count. -/
def sumActiveVectors (red : List SparseNode) : GovernanceVector × ℕ :=
  red.foldl accumVector
    ({ attack_risk := 0, rollback_cost := 0, stability_impact := 0 }, 0)

/-- `avg_vector` of `nsigii_protocol_cycle`: the sums divided by the count
when the count is positive, otherwise the (zero) sums unchanged. -/
def avgVector (red : List SparseNode) : GovernanceVector :=
  let s := sumActiveVectors red
  if 0 < s.2 then
    { attack_risk := s.1.attack_risk / (s.2 : ℚ)
      rollback_cost := s.1.rollback_cost / (s.2 : ℚ)
      stability_impact := s.1.stability_impact / (s.2 : ℚ) }
  else s.1

/-- The balance verdict of `nsigii_protocol_cycle`:
`avg_vector.attack_risk < 0.1f`. -/
def balancedVerdict (red : List SparseNode) : Bool :=
  decide ((avgVector red).attack_risk < 1 / 10)

/-- The linear slot hash of `nsigii_protocol_cycle`:
`(i*100 + j*10 + k) % ACTIVE_SIZE` with C truncating `%`. -/
def linearIdx (p : ℤ × ℤ × ℤ) : ℤ :=
  (p.1 * 100 + p.2.1 * 10 + p.2.2).tmod (ACTIVE_SIZE : ℤ)

/-- Stand-in for an array cell the embedding never actually selects:
list accesses in `buildPacket` use it as the `getD` default. -/
def defaultNode : SparseNode :=
  { value := 0, active := false
    vector := { attack_risk := 0, rollback_cost := 0, stability_impact := 0 }
    channel := 0, polarity := 0 }

/-- One permutation step of packet assembly in `nsigii_protocol_cycle`:
append the RED then GREEN byte at the hashed slot when that cell is active. -/
def packetStep (red green : List SparseNode) (acc : List ℕ) (p : ℤ × ℤ × ℤ) : List ℕ :=
  let lin := (linearIdx p).toNat
  let acc1 :=
    if (red.getD lin defaultNode).active then acc ++ [(red.getD lin defaultNode).value]
    else acc
  if (green.getD lin defaultNode).active then acc1 ++ [(green.getD lin defaultNode).value]
  else acc1

/-- Step 1 of `nsigii_protocol_cycle`: walk the six stored permutations and
collect the active RED/GREEN bytes into the packet. -/
def buildPacket (red green : List SparseNode) (perms : List (ℤ × ℤ × ℤ)) : List ℕ :=
  perms.foldl (packetStep red green) []

/-- `RAND_MAX` of the reference platform. -/
def RAND_MAX : ℕ := 2147483647

/-- The RED cell built by `init_sparse_grid` of nsigii_minimal.c at slot `i`;
`rnd` is the raw `rand()` stream, six calls per slot (three byte values then
three vector components). -/
def mkRed (rnd : ℕ → ℕ) (i : ℕ) : SparseNode :=
  { value := rnd (6 * i) % 256
    active := i % 4 == 0
    channel := 0
    polarity := 1
    vector :=
      { attack_risk := (rnd (6 * i + 3) : ℚ) / (RAND_MAX : ℚ) * (1 / 10)
        rollback_cost := (rnd (6 * i + 4) : ℚ) / (RAND_MAX : ℚ) * (1 / 20)
        stability_impact := (rnd (6 * i + 5) : ℚ) / (RAND_MAX : ℚ) * (1 / 5) } }

/-- The GREEN cell at slot `i`: own byte value, RED's vector as baseline. -/
def mkGreen (rnd : ℕ → ℕ) (i : ℕ) : SparseNode :=
  { mkRed rnd i with value := rnd (6 * i + 1) % 256, channel := 1, polarity := -1 }

/-- The BLUE cell at slot `i`: own byte value, RED's vector as baseline. -/
def mkBlue (rnd : ℕ → ℕ) (i : ℕ) : SparseNode :=
  { mkRed rnd i with value := rnd (6 * i + 2) % 256, channel := 2, polarity := 0 }

/-- `TomographicGrid` of nsigii_minimal.c: four co-indexed channel arrays. -/
structure Grid where
  red : List SparseNode
  green : List SparseNode
  blue : List SparseNode
  cyan : List SparseNode

/-- `init_sparse_grid` of nsigii_minimal.c: populate RED/GREEN/BLUE over the
256 slots and combine RED + GREEN into CYAN; `cyan0` is the CYAN array's
pre-existing (uninitialized) contents, which `combine_channels` leaves in
place at non-consensus slots. -/
def initSparseGrid (rnd : ℕ → ℕ) (cyan0 : List SparseNode) : Grid :=
  let red := (List.range ACTIVE_SIZE).map (mkRed rnd)
  let green := (List.range ACTIVE_SIZE).map (mkGreen rnd)
  let blue := (List.range ACTIVE_SIZE).map (mkBlue rnd)
  { red := red, green := green, blue := blue, cyan := combineChannels cyan0 red green }

end Minimal

namespace Dimensional

/-- The cell fields that a refresh cycle must not change:
activity flag, channel tag, polarity. -/
def cellSig (c : SparseNode) : Bool × ℕ × ℚ :=
  (c.active, c.channel, c.polarity)

/-- The per-row refresh-invariant fields. -/
def slotSig (s : Slot) : (Bool × ℕ × ℚ) × (Bool × ℕ × ℚ) × (Bool × ℕ × ℚ) × (Bool × ℕ × ℚ) :=
  (cellSig s.red, cellSig s.green, cellSig s.blue, cellSig s.cyan)

/-- The Derived-channel invariant on a row: CYAN is active exactly when RED
and GREEN both are, and an active CYAN value is their exact mean. -/
def DerivedInv (s : Slot) : Prop :=
  s.cyan.active = (s.red.active && s.green.active) ∧
    (s.cyan.active = true → s.cyan.value = (s.red.value + s.green.value) / 2)

end Dimensional

/-- The coordinate-range invariant of the navigation state machine:
every component of the current triple lies in `[0, 10)`. -/
abbrev inRange (idx : TomographicIndex) : Prop :=
  0 ≤ idx.i ∧ idx.i < 10 ∧ 0 ≤ idx.j ∧ idx.j < 10 ∧ 0 ≤ idx.k ∧ idx.k < 10

namespace Minimal

/-- A concrete `rand()` stream: 1, 2, 0, 0, …  Used to evaluate the byte
grid at explicit inputs. -/
def exampleRnd : ℕ → ℕ :=
  fun n => if n = 0 then 1 else if n = 1 then 2 else 0

/-- The byte grid initialized from `exampleRnd`, with the CYAN array's
pre-existing contents all inactive. -/
def exampleGrid : Grid :=
  initSparseGrid exampleRnd (List.replicate ACTIVE_SIZE defaultNode)

end Minimal

/- ====== Helper lemmas ====== -/

namespace Dimensional

theorem refreshCell_sig (wave : ℚ → ℕ → ℚ) (rnd : ℕ → ℚ) (cycle i : ℕ)
    (c : SparseNode) (pos : ℕ) :
    cellSig (refreshCell wave rnd cycle i c pos).1 = cellSig c := by
  unfold refreshCell
  split <;> rfl

theorem refreshSlot_sig (wave : ℚ → ℕ → ℚ) (rnd : ℕ → ℚ) (cycle i : ℕ)
    (s : Slot) (pos : ℕ) :
    slotSig (refreshSlot wave rnd cycle i s pos).1 = slotSig s := by
  unfold refreshSlot slotSig
  simp [refreshCell_sig]

theorem refreshGridAux_sig (wave : ℚ → ℕ → ℚ) (rnd : ℕ → ℚ) (cycle : ℕ)
    (g : List Slot) : ∀ (i pos : ℕ),
    ((refreshGridAux wave rnd cycle g i pos).1).map slotSig = g.map slotSig := by
  induction g with
  | nil => intro i pos; rfl
  | cons s rest ih =>
    intro i pos
    simp only [refreshGridAux, List.map_cons]
    exact congrArg₂ (· :: ·) (refreshSlot_sig ..) (ih ..)

theorem refreshGrid_sig (wave : ℚ → ℕ → ℚ) (rnd : ℕ → ℚ) (cycle : ℕ)
    (g : List Slot) (pos : ℕ) :
    ((refreshGrid wave rnd cycle g pos).1).map slotSig = g.map slotSig :=
  refreshGridAux_sig wave rnd cycle g 0 pos

theorem redActiveCount_congr {g₁ g₂ : List Slot}
    (h : g₁.map slotSig = g₂.map slotSig) : redActiveCount g₁ = redActiveCount g₂ := by
  have key : ∀ g : List Slot,
      redActiveCount g = (g.map slotSig).countP (fun t => t.1.1) := by
    intro g
    unfold redActiveCount
    rw [(List.countP_eq_length_filter _ _).symm, List.countP_map]
    rfl
  rw [key, key, h]

theorem greenActiveCount_congr {g₁ g₂ : List Slot}
    (h : g₁.map slotSig = g₂.map slotSig) : greenActiveCount g₁ = greenActiveCount g₂ := by
  have key : ∀ g : List Slot,
      greenActiveCount g = (g.map slotSig).countP (fun t => t.2.1.1) := by
    intro g
    unfold greenActiveCount
    rw [(List.countP_eq_length_filter _ _).symm, List.countP_map]
    rfl
  rw [key, key, h]

set_option maxRecDepth 100000 in
theorem activeTriples_length : activeTriples.length = 249 := by decide

theorem initSparseGrid_length (wave : ℚ → ℕ → ℚ) (rnd : ℕ → ℚ) :
    (initSparseGrid wave rnd).length = 249 := by
  unfold initSparseGrid
  rw [List.length_map, List.enum_length, activeTriples_length]

theorem initSparseGrid_redCount (wave : ℚ → ℕ → ℚ) (rnd : ℕ → ℚ) :
    redActiveCount (initSparseGrid wave rnd) = 249 := by
  unfold redActiveCount
  rw [List.filter_eq_self.mpr, initSparseGrid_length]
  intro s hs
  unfold initSparseGrid at hs
  obtain ⟨p, _, rfl⟩ := List.mem_map.mp hs
  rfl

theorem initSparseGrid_greenCount (wave : ℚ → ℕ → ℚ) (rnd : ℕ → ℚ) :
    greenActiveCount (initSparseGrid wave rnd) = 249 := by
  unfold greenActiveCount
  rw [List.filter_eq_self.mpr, initSparseGrid_length]
  intro s hs
  unfold initSparseGrid at hs
  obtain ⟨p, _, rfl⟩ := List.mem_map.mp hs
  rfl

end Dimensional

namespace Minimal

theorem foldl_accumVector (l : List SparseNode) :
    ∀ acc : GovernanceVector × ℕ,
      (l.foldl accumVector acc).1.attack_risk
          = acc.1.attack_risk + ((l.filter fun c => c.active).map
              fun c => c.vector.attack_risk).sum ∧
      (l.foldl accumVector acc).1.rollback_cost
          = acc.1.rollback_cost + ((l.filter fun c => c.active).map
              fun c => c.vector.rollback_cost).sum ∧
      (l.foldl accumVector acc).1.stability_impact
          = acc.1.stability_impact + ((l.filter fun c => c.active).map
              fun c => c.vector.stability_impact).sum ∧
      (l.foldl accumVector acc).2 = acc.2 + (l.filter fun c => c.active).length := by
  induction l with
  | nil => intro acc; simp
  | cons c rest ih =>
    intro acc
    obtain ⟨ha, hr, hs, hn⟩ := ih (accumVector acc c)
    rw [List.foldl_cons]
    cases hc : c.active with
    | true =>
      refine ⟨?_, ?_, ?_, ?_⟩
      · rw [ha]; simp [accumVector, hc, List.filter_cons]; ring
      · rw [hr]; simp [accumVector, hc, List.filter_cons]; ring
      · rw [hs]; simp [accumVector, hc, List.filter_cons]; ring
      · rw [hn]; simp [accumVector, hc, List.filter_cons]; omega
    | false =>
      refine ⟨?_, ?_, ?_, ?_⟩
      · rw [ha]; simp [accumVector, hc, List.filter_cons]
      · rw [hr]; simp [accumVector, hc, List.filter_cons]
      · rw [hs]; simp [accumVector, hc, List.filter_cons]
      · rw [hn]; simp [accumVector, hc, List.filter_cons]

theorem packetStep_length_le (red green : List SparseNode) (acc : List ℕ)
    (p : ℤ × ℤ × ℤ) : (packetStep red green acc p).length ≤ acc.length + 2 := by
  simp only [packetStep]
  split <;> split <;> simp [List.length_append]

theorem foldl_packetStep_length (red green : List SparseNode)
    (perms : List (ℤ × ℤ × ℤ)) :
    ∀ acc : List ℕ,
      (perms.foldl (packetStep red green) acc).length ≤ acc.length + 2 * perms.length := by
  induction perms with
  | nil => intro acc; simp
  | cons p rest ih =>
    intro acc
    calc (List.foldl (packetStep red green) (packetStep red green acc p) rest).length
        ≤ (packetStep red green acc p).length + 2 * rest.length := ih _
      _ ≤ (acc.length + 2) + 2 * rest.length := by
          have := packetStep_length_le red green acc p; omega
      _ ≤ acc.length + 2 * (p :: rest).length := by simp [List.length_cons]; omega

end Minimal

theorem tmod_bounds (a b : ℤ) (ha : 0 ≤ a) (hb : 0 < b) :
    0 ≤ a.tmod b ∧ a.tmod b < b := by
  rw [Int.tmod_eq_emod ha (le_of_lt hb)]
  exact ⟨Int.emod_nonneg a (ne_of_gt hb), Int.emod_lt_of_pos a hb⟩

/- ====== Claim theorems ====== -/

/-- C1: the claim states that after each navigation event the index's stored
six permutations equal the six canonical orderings of its current triple.
`handle_trident_event` mutates only the triple and never recomputes the
stored permutations: after `EVENT_UP` from `init_tomographic_index(0,0,0)`
the triple is `(1,0,0)` while the stored permutations are still the six
orderings of `(0,0,0)`, so a subsequent protocol cycle samples stale
permutations. -/
theorem C1_permutation_staleness :
    (handleTridentEvent .up (initTomographicIndex 0 0 0)).i = 1 ∧
    (handleTridentEvent .up (initTomographicIndex 0 0 0)).j = 0 ∧
    (handleTridentEvent .up (initTomographicIndex 0 0 0)).k = 0 ∧
    (handleTridentEvent .up (initTomographicIndex 0 0 0)).permutations ≠
      buildPermutations 1 0 0 := by
  decide

/-- C2 (counterexample): the claim says the reference trace at `t = 2` has
`f'(2) = 17`; the source computes `f'(2) = c1 + 2·c2·2 + 3·c3·4 = 23`. -/
theorem C2_counterexample : (Dimensional.traceDerivative 1 2).trace1 ≠ 17 := by
  norm_num [Dimensional.traceDerivative]

/-- C2 (amended): for the reference polynomial `(4,3,2,1)`, `trace(1.0, 2.0)`
yields `f(2) = 26`, `f'(2) = 23`, `f''(2) = 16`, `f'''(2) = 6`,
`f''''(2) = 0`, and `terminated = true`. -/
theorem C2_trace_values :
    (Dimensional.traceDerivative 1 2).trace0 = 26 ∧
    (Dimensional.traceDerivative 1 2).trace1 = 23 ∧
    (Dimensional.traceDerivative 1 2).trace2 = 16 ∧
    (Dimensional.traceDerivative 1 2).trace3 = 6 ∧
    (Dimensional.traceDerivative 1 2).trace4 = 0 ∧
    (Dimensional.traceDerivative 1 2).terminated = true := by
  refine ⟨?_, ?_, ?_, ?_, ?_, ?_⟩ <;> norm_num [Dimensional.traceDerivative]

/-- C8: navigation transitions are total and wrap modulo 10: any event
applied to an in-range index yields an in-range index (never negative, never
an error), and concretely `Right, Right, Left` from the origin leaves
`j = 1` while `Down` at `i = 0` leaves `i = 9`. -/
theorem C8_navigation (e : TridentEvent) (idx : TomographicIndex) (h : inRange idx) :
    inRange (handleTridentEvent e idx) ∧
    (handleTridentEvent .left (handleTridentEvent .right (handleTridentEvent .right
      (initTomographicIndex 0 0 0)))).j = 1 ∧
    (handleTridentEvent .down (initTomographicIndex 0 0 0)).i = 9 := by
  obtain ⟨hi0, hi1, hj0, hj1, hk0, hk1⟩ := h
  refine ⟨?_, by decide, by decide⟩
  cases e with
  | up =>
    have hb := tmod_bounds (idx.i + 1) 10 (by omega) (by norm_num)
    exact ⟨hb.1, hb.2, hj0, hj1, hk0, hk1⟩
  | down =>
    have hb := tmod_bounds (idx.i - 1 + 10) 10 (by omega) (by norm_num)
    exact ⟨hb.1, hb.2, hj0, hj1, hk0, hk1⟩
  | left =>
    have hb := tmod_bounds (idx.j - 1 + 10) 10 (by omega) (by norm_num)
    exact ⟨hi0, hi1, hb.1, hb.2, hk0, hk1⟩
  | right =>
    have hb := tmod_bounds (idx.j + 1) 10 (by omega) (by norm_num)
    exact ⟨hi0, hi1, hb.1, hb.2, hk0, hk1⟩
  | back =>
    have hb := tmod_bounds (idx.k - 1 + 10) 10 (by omega) (by norm_num)
    exact ⟨hi0, hi1, hj0, hj1, hb.1, hb.2⟩
  | start =>
    exact ⟨show (0:ℤ) ≤ 0 by norm_num, show (0:ℤ) < 10 by norm_num,
      show (0:ℤ) ≤ 0 by norm_num, show (0:ℤ) < 10 by norm_num,
      show (0:ℤ) ≤ 0 by norm_num, show (0:ℤ) < 10 by norm_num⟩
  | enter => exact ⟨hi0, hi1, hj0, hj1, hk0, hk1⟩
  | stop => exact ⟨hi0, hi1, hj0, hj1, hk0, hk1⟩

/-- C8 witness: the navigation theorem applied at `Up` from the origin. -/
theorem C8_witness :
    inRange (handleTridentEvent .up (initTomographicIndex 0 0 0)) ∧
    (handleTridentEvent .left (handleTridentEvent .right (handleTridentEvent .right
      (initTomographicIndex 0 0 0)))).j = 1 ∧
    (handleTridentEvent .down (initTomographicIndex 0 0 0)).i = 9 :=
  C8_navigation .up (initTomographicIndex 0 0 0) (by decide)

/-- C10: for every initial value and every time, the derivative tracer's
result does not depend on the initial value at all, and it always sets
`trace[4] = 0`, `order = 4`, and `terminated = true`. -/
theorem C10_trace_all_inputs (initial t : ℚ) :
    Dimensional.traceDerivative initial t = Dimensional.traceDerivative 0 t ∧
    (Dimensional.traceDerivative initial t).trace4 = 0 ∧
    (Dimensional.traceDerivative initial t).order = 4 ∧
    (Dimensional.traceDerivative initial t).terminated = true := by
  refine ⟨rfl, rfl, rfl, ?_⟩
  norm_num [Dimensional.traceDerivative]

/-- C3 (counterexample): the claim says the active Primary count after
initialization is exactly `N³/4 = 250`; only 249 triples in `[0,10)³` satisfy
`(i+j+k) mod 4 = 0`, so the initialized grid has 249 active Primary rows,
not 250. -/
theorem C3_counterexample :
    Dimensional.redActiveCount (Dimensional.initSparseGrid (fun _ _ => 0) (fun _ => 0)) ≠ 250 := by
  rw [Dimensional.initSparseGrid_redCount]
  decide

/-- C3 (amended): after initializing the `N = 10`, `F = 1/4` grid and after
each of three refresh cycles, the active Primary and Verification counts are
each exactly 249 — the number of triples in `[0,10)³` with
`(i+j+k) mod 4 = 0`, which is below the 250 capacity cap. -/
theorem C3_active_counts (wave : ℚ → ℕ → ℚ) (rnd : ℕ → ℚ) (p1 p2 p3 : ℕ) :
    (Dimensional.redActiveCount (Dimensional.initSparseGrid wave rnd) = 249 ∧
     Dimensional.greenActiveCount (Dimensional.initSparseGrid wave rnd) = 249) ∧
    (Dimensional.redActiveCount
        (Dimensional.refreshGrid wave rnd 0 (Dimensional.initSparseGrid wave rnd) p1).1 = 249 ∧
     Dimensional.greenActiveCount
        (Dimensional.refreshGrid wave rnd 0 (Dimensional.initSparseGrid wave rnd) p1).1 = 249) ∧
    (Dimensional.redActiveCount
        (Dimensional.refreshGrid wave rnd 1
          (Dimensional.refreshGrid wave rnd 0 (Dimensional.initSparseGrid wave rnd) p1).1 p2).1
        = 249 ∧
     Dimensional.greenActiveCount
        (Dimensional.refreshGrid wave rnd 1
          (Dimensional.refreshGrid wave rnd 0 (Dimensional.initSparseGrid wave rnd) p1).1 p2).1
        = 249) ∧
    (Dimensional.redActiveCount
        (Dimensional.refreshGrid wave rnd 2
          (Dimensional.refreshGrid wave rnd 1
            (Dimensional.refreshGrid wave rnd 0 (Dimensional.initSparseGrid wave rnd) p1).1
            p2).1 p3).1
        = 249 ∧
     Dimensional.greenActiveCount
        (Dimensional.refreshGrid wave rnd 2
          (Dimensional.refreshGrid wave rnd 1
            (Dimensional.refreshGrid wave rnd 0 (Dimensional.initSparseGrid wave rnd) p1).1
            p2).1 p3).1
        = 249) := by
  have h0r := Dimensional.initSparseGrid_redCount wave rnd
  have h0g := Dimensional.initSparseGrid_greenCount wave rnd
  have s1 := Dimensional.refreshGrid_sig wave rnd 0 (Dimensional.initSparseGrid wave rnd) p1
  have s2 := Dimensional.refreshGrid_sig wave rnd 1
    ((Dimensional.refreshGrid wave rnd 0 (Dimensional.initSparseGrid wave rnd) p1).1) p2
  have s3 := Dimensional.refreshGrid_sig wave rnd 2
    ((Dimensional.refreshGrid wave rnd 1
      ((Dimensional.refreshGrid wave rnd 0 (Dimensional.initSparseGrid wave rnd) p1).1) p2).1) p3
  exact ⟨⟨h0r, h0g⟩,
    ⟨(Dimensional.redActiveCount_congr s1).trans h0r,
     (Dimensional.greenActiveCount_congr s1).trans h0g⟩,
    ⟨(Dimensional.redActiveCount_congr (s2.trans s1)).trans h0r,
     (Dimensional.greenActiveCount_congr (s2.trans s1)).trans h0g⟩,
    ⟨(Dimensional.redActiveCount_congr (s3.trans (s2.trans s1))).trans h0r,
     (Dimensional.greenActiveCount_congr (s3.trans (s2.trans s1))).trans h0g⟩⟩

/-- C6: a verification cycle changes only cell values, derivative traces and
entropies: the activity flag, channel tag and polarity of every cell of every
channel are identical after the refresh, for every grid and every cycle. -/
theorem C6_refresh_frame (wave : ℚ → ℕ → ℚ) (rnd : ℕ → ℚ) (cycle pos : ℕ)
    (g : List Dimensional.Slot) :
    ((Dimensional.refreshGrid wave rnd cycle g pos).1).map Dimensional.slotSig
      = g.map Dimensional.slotSig :=
  Dimensional.refreshGrid_sig wave rnd cycle g pos

namespace Dimensional

theorem refreshCell_active (wave : ℚ → ℕ → ℚ) (rnd : ℕ → ℚ) (cycle i : ℕ)
    (c : SparseNode) (pos : ℕ) :
    (refreshCell wave rnd cycle i c pos).1.active = c.active :=
  congrArg Prod.fst (refreshCell_sig wave rnd cycle i c pos)

theorem refreshCell_value_active (wave : ℚ → ℕ → ℚ) (rnd : ℕ → ℚ) (cycle i : ℕ)
    (c : SparseNode) (pos : ℕ) (h : c.active = true) :
    (refreshCell wave rnd cycle i c pos).1.value
      = wave ((cycle : ℚ) * (1 / 10) + (i : ℚ) * (1 / 100)) (HARMONICS + cycle % 5) := by
  simp [refreshCell, h]

end Dimensional

/-- C4 (counterexample): the claim says an active Derived cell's value equals
`(Primary.value + Verification.value) / 2` exactly (within `1e-9`).  In the
byte grid the combiner computes the truncating integer mean: with RED byte 1
and GREEN byte 2 at slot 0, CYAN's byte is `(1+2)/2 = 1`, which differs from
the exact mean `1.5` by `0.5 > 1e-9`. -/
theorem C4_counterexample :
    (Minimal.exampleGrid.cyan.getD 0 Minimal.defaultNode).active = true ∧
    (Minimal.exampleGrid.red.getD 0 Minimal.defaultNode).value = 1 ∧
    (Minimal.exampleGrid.green.getD 0 Minimal.defaultNode).value = 2 ∧
    ¬ (|((Minimal.exampleGrid.cyan.getD 0 Minimal.defaultNode).value : ℚ)
          - ((1 : ℚ) + 2) / 2| < 1 / 1000000000) := by
  have hv : (Minimal.exampleGrid.cyan.getD 0 Minimal.defaultNode).value = 1 := by decide
  refine ⟨by decide, by decide, by decide, fun habs => ?_⟩
  rw [hv, abs_lt] at habs
  norm_num at habs

/-- C4 (amended): the Derived-channel invariant as the code enforces it.
(1) Byte grid: given a Derived cell that starts inactive, the combiner makes
it active exactly when Primary and Verification are both active, and its byte
value is the truncating integer mean `(Primary.value + Verification.value) div 2`.
(2) Real-valued grid: every row built by initialization has
`Derived.active = (Primary.active && Verification.active)` and an exactly-mean
Derived value.  (3) The invariant is preserved by every refresh cycle row
update. -/
theorem C4_derived_invariant :
    (∀ c0 r g : Minimal.SparseNode, c0.active = false →
      ((Minimal.combineCell c0 r g).active = (r.active && g.active)) ∧
      (r.active = true → g.active = true →
        (Minimal.combineCell c0 r g).value = (r.value + g.value) / 2)) ∧
    (∀ (wave : ℚ → ℕ → ℚ) (rnd : ℕ → ℚ) (n i j k : ℕ),
      (Dimensional.mkSlot wave rnd n i j k).cyan.active
          = ((Dimensional.mkSlot wave rnd n i j k).red.active &&
             (Dimensional.mkSlot wave rnd n i j k).green.active) ∧
      (Dimensional.mkSlot wave rnd n i j k).cyan.value
          = ((Dimensional.mkSlot wave rnd n i j k).red.value
              + (Dimensional.mkSlot wave rnd n i j k).green.value) / 2) ∧
    (∀ (wave : ℚ → ℕ → ℚ) (rnd : ℕ → ℚ) (cycle i pos : ℕ) (s : Dimensional.Slot),
      Dimensional.DerivedInv s →
      Dimensional.DerivedInv (Dimensional.refreshSlot wave rnd cycle i s pos).1) := by
  refine ⟨?_, ?_, ?_⟩
  · intro c0 r g h
    constructor
    · cases hr : r.active <;> cases hg : g.active <;>
        simp [Minimal.combineCell, hr, hg, h]
    · intro hr hg
      simp [Minimal.combineCell, hr, hg]
  · intro wave rnd n i j k
    exact ⟨rfl, rfl⟩
  · intro wave rnd cycle i pos s hinv
    obtain ⟨h1, h2⟩ := hinv
    simp only [Dimensional.refreshSlot, Dimensional.DerivedInv]
    constructor
    · rw [Dimensional.refreshCell_active, Dimensional.refreshCell_active,
        Dimensional.refreshCell_active]
      exact h1
    · intro hact
      rw [Dimensional.refreshCell_active] at hact
      have hrg : s.red.active = true ∧ s.green.active = true := by
        rw [hact] at h1
        simpa using h1.symm
      rw [Dimensional.refreshCell_value_active _ _ _ _ _ _ hact,
        Dimensional.refreshCell_value_active _ _ _ _ _ _ hrg.1,
        Dimensional.refreshCell_value_active _ _ _ _ _ _ hrg.2]
      ring

/-- C4 witness: the amended invariant applied at concrete cells (bytes 1 and
2, both active, over an inactive Derived cell) and at a concrete refreshed
row. -/
theorem C4_witness :
    ((Minimal.combineCell Minimal.defaultNode
        { value := 1, active := true,
          vector := { attack_risk := 0, rollback_cost := 0, stability_impact := 0 },
          channel := 0, polarity := 1 }
        { value := 2, active := true,
          vector := { attack_risk := 0, rollback_cost := 0, stability_impact := 0 },
          channel := 1, polarity := -1 }).active = true) ∧
    ((Minimal.combineCell Minimal.defaultNode
        { value := 1, active := true,
          vector := { attack_risk := 0, rollback_cost := 0, stability_impact := 0 },
          channel := 0, polarity := 1 }
        { value := 2, active := true,
          vector := { attack_risk := 0, rollback_cost := 0, stability_impact := 0 },
          channel := 1, polarity := -1 }).value = 1) ∧
    Dimensional.DerivedInv
      (Dimensional.refreshSlot (fun _ _ => 0) (fun _ => 0) 0 0
        (Dimensional.mkSlot (fun _ _ => 0) (fun _ => 0) 0 0 0 0) 0).1 :=
  ⟨(C4_derived_invariant.1 _ _ _ rfl).1,
   (C4_derived_invariant.1 _ _ _ rfl).2 rfl rfl,
   C4_derived_invariant.2.2 _ _ 0 0 0 _ ⟨rfl, fun _ => rfl⟩⟩

/-- C5 (counterexample): the claim says the combiner produces an inactive,
zeroed derived cell when an input is inactive; the source's loop body does
nothing in that case, so a pre-existing active, non-zero CYAN cell survives
combination with an inactive RED input. -/
theorem C5_counterexample :
    (Minimal.combineCell
      { value := 7, active := true,
        vector := { attack_risk := 0, rollback_cost := 0, stability_impact := 0 },
        channel := 3, polarity := 0 }
      Minimal.defaultNode Minimal.defaultNode).active = true ∧
    (Minimal.combineCell
      { value := 7, active := true,
        vector := { attack_risk := 0, rollback_cost := 0, stability_impact := 0 },
        channel := 3, polarity := 0 }
      Minimal.defaultNode Minimal.defaultNode).value ≠ 0 := by
  constructor <;> decide

/-- C5 (amended): when either input cell is inactive the combiner leaves the
derived cell exactly as it was — the defined no-consensus outcome preserves
the prior cell rather than zeroing it — and the combiner is a pure function
of the prior derived cell and the two input cells. -/
theorem C5_no_consensus (c0 r g : Minimal.SparseNode)
    (h : r.active = false ∨ g.active = false) :
    Minimal.combineCell c0 r g = c0 := by
  unfold Minimal.combineCell
  rcases h with h | h <;> simp [h]

/-- C5 witness: an inactive Primary input leaves a concrete active Derived
cell untouched. -/
theorem C5_witness :
    Minimal.combineCell
      { value := 7, active := true,
        vector := { attack_risk := 0, rollback_cost := 0, stability_impact := 0 },
        channel := 3, polarity := 0 }
      Minimal.defaultNode Minimal.defaultNode
      = { value := 7, active := true,
          vector := { attack_risk := 0, rollback_cost := 0, stability_impact := 0 },
          channel := 3, polarity := 0 } :=
  C5_no_consensus _ _ _ (Or.inl rfl)

/-- C7: when at least one Primary cell is active, the protocol cycle's
aggregate governance vector is the component-wise arithmetic mean over all
currently-active Primary cells of the whole grid, and the verdict is
balanced exactly when the aggregate attack risk is strictly below `0.1`. -/
theorem C7_aggregate_mean (red : List Minimal.SparseNode)
    (h : 0 < ((red.filter fun c => c.active).length : ℕ)) :
    (Minimal.avgVector red).attack_risk
        = ((red.filter fun c => c.active).map fun c => c.vector.attack_risk).sum
          / ((red.filter fun c => c.active).length : ℚ) ∧
    (Minimal.avgVector red).rollback_cost
        = ((red.filter fun c => c.active).map fun c => c.vector.rollback_cost).sum
          / ((red.filter fun c => c.active).length : ℚ) ∧
    (Minimal.avgVector red).stability_impact
        = ((red.filter fun c => c.active).map fun c => c.vector.stability_impact).sum
          / ((red.filter fun c => c.active).length : ℚ) ∧
    (Minimal.balancedVerdict red = true ↔ (Minimal.avgVector red).attack_risk < 1 / 10) := by
  obtain ⟨ha, hr, hs, hn⟩ := Minimal.foldl_accumVector red
    ({ attack_risk := 0, rollback_cost := 0, stability_impact := 0 }, 0)
  have e1 : (Minimal.sumActiveVectors red).1.attack_risk
      = ((red.filter fun c => c.active).map fun c => c.vector.attack_risk).sum := by
    unfold Minimal.sumActiveVectors; rw [ha]; norm_num
  have e2 : (Minimal.sumActiveVectors red).1.rollback_cost
      = ((red.filter fun c => c.active).map fun c => c.vector.rollback_cost).sum := by
    unfold Minimal.sumActiveVectors; rw [hr]; norm_num
  have e3 : (Minimal.sumActiveVectors red).1.stability_impact
      = ((red.filter fun c => c.active).map fun c => c.vector.stability_impact).sum := by
    unfold Minimal.sumActiveVectors; rw [hs]; norm_num
  have e4 : (Minimal.sumActiveVectors red).2 = (red.filter fun c => c.active).length := by
    unfold Minimal.sumActiveVectors; rw [hn]; norm_num
  have hpos : 0 < (Minimal.sumActiveVectors red).2 := by rw [e4]; exact h
  have havg : Minimal.avgVector red
      = { attack_risk := (Minimal.sumActiveVectors red).1.attack_risk
            / ((Minimal.sumActiveVectors red).2 : ℚ)
          rollback_cost := (Minimal.sumActiveVectors red).1.rollback_cost
            / ((Minimal.sumActiveVectors red).2 : ℚ)
          stability_impact := (Minimal.sumActiveVectors red).1.stability_impact
            / ((Minimal.sumActiveVectors red).2 : ℚ) } := by
    unfold Minimal.avgVector
    rw [if_pos hpos]
  refine ⟨?_, ?_, ?_, ?_⟩
  · rw [havg]
    simp only []
    rw [e1, e4]
  · rw [havg]
    simp only []
    rw [e2, e4]
  · rw [havg]
    simp only []
    rw [e3, e4]
  · unfold Minimal.balancedVerdict
    exact decide_eq_true_iff

/-- C7 witness: the aggregate-mean theorem applied to a one-cell grid whose
single Primary cell is active with attack risk `1/20`. -/
theorem C7_witness :
    let red : List Minimal.SparseNode :=
      [{ value := 0, active := true,
         vector := { attack_risk := 1/20, rollback_cost := 1/30, stability_impact := 1/40 },
         channel := 0, polarity := 1 }]
    (Minimal.avgVector red).attack_risk
        = ((red.filter fun c => c.active).map fun c => c.vector.attack_risk).sum
          / ((red.filter fun c => c.active).length : ℚ) ∧
    (Minimal.avgVector red).rollback_cost
        = ((red.filter fun c => c.active).map fun c => c.vector.rollback_cost).sum
          / ((red.filter fun c => c.active).length : ℚ) ∧
    (Minimal.avgVector red).stability_impact
        = ((red.filter fun c => c.active).map fun c => c.vector.stability_impact).sum
          / ((red.filter fun c => c.active).length : ℚ) ∧
    (Minimal.balancedVerdict red = true ↔ (Minimal.avgVector red).attack_risk < 1 / 10) :=
  C7_aggregate_mean _ (by decide)

/-- C9: for any grid contents and any index whose six permutation entries are
non-negative, one protocol cycle's packet holds at most 12 bytes (so every
write into the 256-byte packet buffer is in bounds), and every hashed linear
slot index lies in `[0, ACTIVE_SIZE)`. -/
theorem C9_packet_bounds (red green : List Minimal.SparseNode)
    (perms : List (ℤ × ℤ × ℤ)) (hlen : perms.length = 6)
    (hnn : ∀ p ∈ perms, 0 ≤ p.1 ∧ 0 ≤ p.2.1 ∧ 0 ≤ p.2.2) :
    (Minimal.buildPacket red green perms).length ≤ 12 ∧
    (Minimal.buildPacket red green perms).length < 256 ∧
    ∀ p ∈ perms, 0 ≤ Minimal.linearIdx p ∧ Minimal.linearIdx p < (Minimal.ACTIVE_SIZE : ℤ) := by
  have hlen12 : (Minimal.buildPacket red green perms).length ≤ 12 := by
    have hb := Minimal.foldl_packetStep_length red green perms []
    unfold Minimal.buildPacket
    simp only [List.length_nil, hlen] at hb
    omega
  refine ⟨hlen12, by omega, ?_⟩
  intro p hp
  obtain ⟨h1, h2, h3⟩ := hnn p hp
  unfold Minimal.linearIdx
  exact tmod_bounds (p.1 * 100 + p.2.1 * 10 + p.2.2) (Minimal.ACTIVE_SIZE : ℤ)
    (by omega) (by norm_num [Minimal.ACTIVE_SIZE])

/-- C9 witness: the packet-bounds theorem applied to the six permutations of
the origin index over empty channel arrays. -/
theorem C9_witness :
    (Minimal.buildPacket [] [] (buildPermutations 0 0 0)).length ≤ 12 ∧
    (Minimal.buildPacket [] [] (buildPermutations 0 0 0)).length < 256 ∧
    ∀ p ∈ buildPermutations 0 0 0,
      0 ≤ Minimal.linearIdx p ∧ Minimal.linearIdx p < (Minimal.ACTIVE_SIZE : ℤ) :=
  C9_packet_bounds [] [] _ (by decide) (by decide)
